import Mathlib

/-!
Verification development for the social-media post generator repository.

The development shallowly embeds the workflow core of the repository:
the post store operations in `services/post_service.py`, the workflow
engine `GeminiAgentService.generate_post` in
`services/gemini_agent_service.py`, the JSON extraction helper
`helper/jsonhelper.py`, and the selection endpoint `choose_variation`
in `routes/posts.py`.  External collaborators (web extraction, the
generation gateway, image generation and upload) are modelled as
oracle parameters, matching the specification's treatment of them as
opaque remote functions.
-/

namespace SMG

/-- `PostStatus` enum from `database/post_models.py`. -/
inductive PostStatus where
  | pending
  | processing_context
  | generating_text
  | generating_media
  | completed
  | failed
deriving DecidableEq

/-- `MediaType` enum from `database/post_models.py`. -/
inductive MediaType where
  | image
  | video
  | both
  | none
deriving DecidableEq

/-- `DataSourceType` enum from `database/post_models.py`. -/
inductive DataSourceType where
  | text
  | link
deriving DecidableEq

/-- `ContentType` enum from `database/post_models.py`. -/
inductive ContentType where
  | long_form
  | short_form
deriving DecidableEq

/-- JSON values, the shape produced by Python's `json.loads`.  Number
tokens are kept as their lexemes (the workflow only stores them, it
never computes with them). -/
inductive JVal where
  | jnull
  | jbool (b : Bool)
  | jnum (lexeme : String)
  | jstr (s : String)
  | jarr (xs : List JVal)
  | jobj (fields : List (String × JVal))

/-- JSON whitespace characters accepted between tokens by `json.loads`. -/
def isJsonWs (c : Char) : Bool :=
  c = ' ' || c = '\n' || c = '\t' || c = '\r'

/-- Drop leading JSON whitespace. -/
def skipWs : List Char → List Char
  | [] => []
  | c :: cs => if isJsonWs c then skipWs cs else c :: cs

/-- Decode one JSON escape character (the character after a backslash). -/
def jsonEscChar (e : Char) : Option Char :=
  if e = '"' then some '"'
  else if e = '\\' then some '\\'
  else if e = '/' then some '/'
  else if e = 'b' then some '\x08'
  else if e = 'f' then some '\x0c'
  else if e = 'n' then some '\n'
  else if e = 'r' then some '\r'
  else if e = 't' then some '\t'
  else none

/-- Hex digit value. -/
def hexVal (c : Char) : Option Nat :=
  if '0' ≤ c ∧ c ≤ '9' then some (c.toNat - '0'.toNat)
  else if 'a' ≤ c ∧ c ≤ 'f' then some (c.toNat - 'a'.toNat + 10)
  else if 'A' ≤ c ∧ c ≤ 'F' then some (c.toNat - 'A'.toNat + 10)
  else none

/-- Body of a JSON string literal, after the opening quote; returns the decoded
string and the remaining input.  Control characters are rejected, as in strict
`json.loads`. -/
def parseStringBody : List Char → List Char → Option (String × List Char)
  | [], _ => none
  | '"' :: rest, acc => some (String.mk acc.reverse, rest)
  | '\\' :: 'u' :: a :: b :: c :: d :: rest, acc =>
    match hexVal a, hexVal b, hexVal c, hexVal d with
    | some x, some y, some z, some w =>
      parseStringBody rest (Char.ofNat (((x * 16 + y) * 16 + z) * 16 + w) :: acc)
    | _, _, _, _ => none
  | '\\' :: e :: rest, acc =>
    match jsonEscChar e with
    | some c => parseStringBody rest (c :: acc)
    | none => none
  | c :: rest, acc =>
    if c.toNat < 32 then none else parseStringBody rest (c :: acc)

/-- Split off a (possibly empty) run of decimal digits. -/
def takeDigits : List Char → List Char × List Char
  | [] => ([], [])
  | c :: cs =>
    if c.isDigit then
      let (ds, rest) := takeDigits cs
      (c :: ds, rest)
    else ([], c :: cs)

/-- Parse a JSON number token, returning its lexeme and the rest of the input.
Mirrors the strict grammar of `json.loads` (no leading zeros, mandatory digits
after a decimal point or exponent marker). -/
def parseNumberToken (cs : List Char) : Option (String × List Char) :=
  let (sign, cs1) :=
    match cs with
    | '-' :: rest => (['-'], rest)
    | _ => (([] : List Char), cs)
  match cs1 with
  | [] => none
  | c :: rest =>
    if ¬ c.isDigit then none
    else
      let (intDs, cs2) :=
        if c = '0' then ([c], rest)
        else
          let (ds, r) := takeDigits rest
          (c :: ds, r)
      let (fracDs, cs3) :=
        match cs2 with
        | '.' :: r =>
          let (ds, r2) := takeDigits r
          (('.' :: ds), r2)
        | _ => (([] : List Char), cs2)
      if fracDs = ['.'] then none
      else
        let (expDs, cs4) :=
          match cs3 with
          | e :: r =>
            if e = 'e' ∨ e = 'E' then
              let (sgn, r1) :=
                match r with
                | s :: r2 => if s = '+' ∨ s = '-' then ([s], r2) else (([] : List Char), r)
                | [] => (([] : List Char), r)
              let (ds, r2) := takeDigits r1
              if ds = [] then ([e], r1) else (e :: (sgn ++ ds), r2)
            else (([] : List Char), cs3)
          | [] => (([] : List Char), cs3)
        match expDs with
        | [e] => if e = 'e' ∨ e = 'E' then none else some (String.mk (sign ++ intDs ++ fracDs ++ expDs), cs4)
        | _ => some (String.mk (sign ++ intDs ++ fracDs ++ expDs), cs4)

/-- Check that the input starts with the given literal characters. -/
def expectChars : List Char → List Char → Option (List Char)
  | [], cs => some cs
  | l :: ls, c :: cs => if c = l then expectChars ls cs else none
  | _ :: _, [] => none

mutual

/-- Recursive-descent model of `json.loads` value parsing; `fuel` bounds the
nesting depth (one unit is spent per nested value, so input length suffices). -/
def parseValue : Nat → List Char → Option (JVal × List Char)
  | 0, _ => none
  | Nat.succ fuel, cs =>
    match skipWs cs with
    | [] => none
    | c :: rest =>
      if c = '\x7b' then
        match skipWs rest with
        | '\x7d' :: r2 => some (.jobj [], r2)
        | cs1 => parseMembers fuel cs1 []
      else if c = '[' then
        match skipWs rest with
        | ']' :: r2 => some (.jarr [], r2)
        | cs1 => parseElements fuel cs1 []
      else if c = '"' then
        match parseStringBody rest [] with
        | some (s, r2) => some (.jstr s, r2)
        | none => none
      else if c = 't' then
        match expectChars ['r', 'u', 'e'] rest with
        | some r2 => some (.jbool true, r2)
        | none => none
      else if c = 'f' then
        match expectChars ['a', 'l', 's', 'e'] rest with
        | some r2 => some (.jbool false, r2)
        | none => none
      else if c = 'n' then
        match expectChars ['u', 'l', 'l'] rest with
        | some r2 => some (.jnull, r2)
        | none => none
      else
        match parseNumberToken (c :: rest) with
        | some (lex, r2) => some (.jnum lex, r2)
        | none => none

/-- Members of a JSON object after the opening brace (non-empty case). -/
def parseMembers : Nat → List Char → List (String × JVal) →
    Option (JVal × List Char)
  | 0, _, _ => none
  | Nat.succ fuel, cs, acc =>
    match skipWs cs with
    | '"' :: r1 =>
      match parseStringBody r1 [] with
      | some (k, r2) =>
        match skipWs r2 with
        | ':' :: r3 =>
          match parseValue fuel r3 with
          | some (v, r4) =>
            match skipWs r4 with
            | ',' :: r5 => parseMembers fuel r5 (acc ++ [(k, v)])
            | '\x7d' :: r5 => some (.jobj (acc ++ [(k, v)]), r5)
            | _ => none
          | none => none
        | _ => none
      | none => none
    | _ => none

/-- Elements of a JSON array after the opening bracket (non-empty case). -/
def parseElements : Nat → List Char → List JVal → Option (JVal × List Char)
  | 0, _, _ => none
  | Nat.succ fuel, cs, acc =>
    match parseValue fuel cs with
    | some (v, r1) =>
      match skipWs r1 with
      | ',' :: r2 => parseElements fuel r2 (acc ++ [v])
      | ']' :: r2 => some (.jarr (acc ++ [v]), r2)
      | _ => none
    | none => none

end

/-- Model of `json.loads` on a character list: parse one value and require
that only whitespace remains. -/
def jsonLoadsChars (cs : List Char) : Option JVal :=
  match parseValue (cs.length + 1) cs with
  | some (v, rest) => if skipWs rest = [] then some v else none
  | none => none

/-- Index of the first occurrence of `c`. -/
def firstIdxOf : List Char → Char → Option Nat
  | [], _ => none
  | a :: t, c => if a = c then some 0 else (firstIdxOf t c).map (· + 1)

/-- Index of the last occurrence of `c`. -/
def lastIdxOf (cs : List Char) (c : Char) : Option Nat :=
  match firstIdxOf cs.reverse c with
  | some i => some (cs.length - 1 - i)
  | none => none

/-- The span matched by `re.search(r'\x7b.*\x7d', s, re.DOTALL)` in
`parse_json_from_string` (`helper/jsonhelper.py`): the leftmost match of the
greedy pattern runs from the first opening brace to the last closing brace of
the whole string, provided the latter lies strictly after the former. -/
def pyFindJsonSpan (cs : List Char) : Option (List Char) :=
  match firstIdxOf cs '\x7b', lastIdxOf cs '\x7d' with
  | some i, some j => if i < j then some ((cs.drop i).take (j + 1 - i)) else none
  | _, _ => none

/-- `parse_json_from_string` from `helper/jsonhelper.py`: find the regex span,
then `json.loads` it; raising is modelled by `Except.error` carrying the
`ValueError` message. -/
def parse_json_from_string (s : String) : Except String JVal :=
  match pyFindJsonSpan s.toList with
  | some span =>
    match jsonLoadsChars span with
    | some v => Except.ok v
    | none => Except.error "Failed to decode JSON"
  | none => Except.error "No JSON object found in the input string."

/-- Python `dict` lookup (later duplicate keys override earlier ones, so the
last binding wins). -/
def lookupLast (fs : List (String × JVal)) (k : String) : Option JVal :=
  (fs.filter (fun p => p.1 == k)).getLast?.map (fun p => p.2)

/-- Python `d.get(key, default)` on a parsed JSON value.  In the workflow the
receiver is always the object produced by `parse_json_from_string` (the regex
span starts with a brace, so a successful `json.loads` yields a dict). -/
def jGetD (j : JVal) (k : String) (d : JVal) : JVal :=
  match j with
  | .jobj fs => (lookupLast fs k).getD d
  | _ => d

/-- Python `for _ in v`: lists yield their elements, dicts their keys, strings
their characters; other values raise `TypeError`. -/
def jIterElems : JVal → Except String (List JVal)
  | .jarr xs => Except.ok xs
  | .jobj fs => Except.ok (fs.map (fun kv => JVal.jstr kv.1))
  | .jstr s => Except.ok (s.toList.map (fun c => JVal.jstr (String.mk [c])))
  | _ => Except.error "TypeError: not iterable"

/-- Python `v[key]` with a string key: dicts look the key up (`KeyError` when
absent); every other value raises `TypeError`. -/
def jSubscript : JVal → String → Except String JVal
  | .jobj fs, k =>
    match lookupLast fs k with
    | some v => Except.ok v
    | none => Except.error "KeyError"
  | _, _ => Except.error "TypeError: not subscriptable"

/-- Sanitization applied to the raw gateway response in
`GeminiAgentService.generate_post` (line 130): newline, carriage return and
tab each become a space, and each literal hash mark becomes the placeholder
`(Hashtag)`.  The four chained `str.replace` calls commute with this single
character-wise pass because no replacement ever produces a character that a
later `replace` rewrites. -/
def sanitizeChar (c : Char) : List Char :=
  if c = '\n' ∨ c = '\r' ∨ c = '\t' then [' ']
  else if c = '\x23' then "(Hashtag)".toList
  else [c]

/-- Character-list form of the sanitization pass. -/
def sanitizeChars (cs : List Char) : List Char :=
  cs.flatMap sanitizeChar

/-- The sanitized gateway response, as a string. -/
def sanitizeResponse (s : String) : String :=
  String.mk (sanitizeChars s.toList)

/-! ## The data model (`database/post_models.py`)

Rows carry the columns that the modelled operations read or write.  Ids and
timestamps are natural numbers (the code uses UUID strings and UTC datetimes;
only freshness and ordering matter).  Text-variation numbers and contents are
stored as the parsed JSON values the workflow passes in. -/

/-- A row of the `posts` table. -/
structure PostRow where
  id : Nat
  language_tone : String
  media_content_needed : MediaType
  content_type : ContentType
  text_variations_count : Nat
  media_variations_count : Nat
  status : PostStatus
  current_step : Option String
  error_message : Option String
  created_at : Nat
  started_at : Option Nat
  completed_at : Option Nat
deriving DecidableEq

/-- A row of the `data_sources` table (the validation fields are never read
by the workflow engine). -/
structure DataSourceRow where
  id : Nat
  post_id : Nat
  source_type : DataSourceType
  content : String
deriving DecidableEq

/-- A row of the `text_variations` table.  `variation_number` and
`text_content` hold the JSON values taken from the parsed gateway response
(SQLite stores whatever value arrives). -/
structure TextVariationRow where
  id : Nat
  post_id : Nat
  variation_number : JVal
  text_content : JVal
  image_generation_prompts : Option JVal
  is_selected : Bool

/-- A row of the `media_contents` table.  `generation_prompt` keeps the JSON
value whose Python `str()` the code stores; no modelled operation reads it. -/
structure MediaContentRow where
  id : Nat
  post_id : Nat
  media_type : MediaType
  variation_number : Nat
  file_path : Option String
  generation_prompt : Option JVal
  is_selected : Bool

/-- A row of the `post_selections` table. -/
structure PostSelectionRow where
  id : Nat
  post_id : Nat
  text_variation_id : Nat
deriving DecidableEq

/-- A row of the `selected_media` table. -/
structure SelectedMediaRow where
  id : Nat
  selection_id : Nat
  media_content_id : Nat
deriving DecidableEq

/-- A row of the `unwanted_media` table; `file_path` is NOT NULL in the
schema. -/
structure UnwantedMediaRow where
  id : Nat
  media_content_id : Nat
  file_path : String
  post_id : Nat
  marked_at : Nat
deriving DecidableEq

/-- The relational store.  Lists keep insertion order (SQLite rowid order);
`next_id` generates fresh ids. -/
structure DB where
  posts : List PostRow
  data_sources : List DataSourceRow
  text_variations : List TextVariationRow
  media_contents : List MediaContentRow
  selections : List PostSelectionRow
  selected_media : List SelectedMediaRow
  unwanted_media : List UnwantedMediaRow
  next_id : Nat

/-! ## Post store operations (`services/post_service.py`) -/

/-- `db.query(Post).filter(Post.id == post_id).first()`. -/
def find_post (db : DB) (postId : Nat) : Option PostRow :=
  db.posts.find? (fun p => p.id == postId)

/-- Write back a mutated post row. -/
def set_post (db : DB) (p : PostRow) : DB :=
  { db with posts := db.posts.map (fun q => if q.id == p.id then p else q) }

/-- The field mutations of `PostService.update_post_status` (post_service.py
lines 149-158): set the status, overwrite `current_step`/`error_message` only
when an argument was passed, stamp `started_at` the first time the status
becomes `processing_context`, and stamp `completed_at` whenever the status
becomes `completed` or `failed`. -/
def apply_status_update (post : PostRow) (now : Nat) (status : PostStatus)
    (current_step : Option String) (error_message : Option String) : PostRow :=
  let post := { post with status := status }
  let post :=
    match current_step with
    | some s => { post with current_step := some s }
    | none => post
  let post :=
    match error_message with
    | some e => { post with error_message := some e }
    | none => post
  if status = PostStatus.processing_context ∧ post.started_at = (none : Option Nat) then
    { post with started_at := some now }
  else if status = PostStatus.completed ∨ status = PostStatus.failed then
    { post with completed_at := some now }
  else post

/-- `PostService.update_post_status` (post_service.py lines 135-166).  `now`
is the value `datetime.utcnow()` returns during the call. -/
def update_post_status (db : DB) (now : Nat) (postId : Nat)
    (status : PostStatus) (current_step : Option String)
    (error_message : Option String) : DB × Bool :=
  match find_post db postId with
  | none => (db, false)
  | some post =>
    (set_post db (apply_status_update post now status current_step error_message), true)

/-- `PostService.add_text_variation` (lines 168-197); returns the new row id.
The model has no storage faults, so the insert always succeeds. -/
def add_text_variation (db : DB) (postId : Nat) (variation_number : JVal)
    (text_content : JVal) (image_generation_prompts : Option JVal) :
    DB × Nat :=
  let row : TextVariationRow :=
    ⟨db.next_id, postId, variation_number, text_content,
      image_generation_prompts, false⟩
  ({ db with
      text_variations := db.text_variations ++ [row],
      next_id := db.next_id + 1 },
    db.next_id)

/-- `PostService.add_media_content` (lines 199-230); returns the new row id. -/
def add_media_content (db : DB) (postId : Nat) (media_type : MediaType)
    (variation_number : Nat) (file_path : Option String)
    (generation_prompt : Option JVal) : DB × Nat :=
  let row : MediaContentRow :=
    ⟨db.next_id, postId, media_type, variation_number, file_path,
      generation_prompt, false⟩
  ({ db with
      media_contents := db.media_contents ++ [row],
      next_id := db.next_id + 1 },
    db.next_id)

/-- `PostService.get_data_sources` (lines 319-328): rows of the post in
insertion order. -/
def get_data_sources (db : DB) (postId : Nat) : List DataSourceRow :=
  db.data_sources.filter (fun s => s.post_id == postId)

/-- Python `str()` applied to a nullable string column: `None` renders as the
(truthy) string `"None"`.  Used by the tombstone condition in
`create_selection` (line 297). -/
def pyStrOpt : Option String → String
  | none => "None"
  | some s => s

/-- Lines 247-255 of `create_selection`: when a `PostSelection` for the post
already exists it is deleted (the ORM cascade also removes its
`SelectedMedia` children) and that deletion is committed on its own. -/
def delete_prior_selection (db : DB) (postId : Nat) : DB :=
  match db.selections.find? (fun s => s.post_id == postId) with
  | some ex =>
    { db with
        selections := db.selections.filter (fun s => ¬ s.id == ex.id),
        selected_media :=
          db.selected_media.filter (fun m => ¬ m.selection_id == ex.id) }
  | none => db

/-- Lines 287-305 of `create_selection`: the media rows for which the loop
constructs an `UnwantedMedia` tombstone — rows of the post, not among the
chosen ids, whose `str(file_path)` is truthy (note that `str(None)` is the
truthy string `"None"`).  When the post row is absent the loop body is
skipped entirely. -/
def unwanted_candidates (db : DB) (postId : Nat)
    (all_selected_ids : List Nat) : List MediaContentRow :=
  if (db.posts.find? (fun p => p.id == postId)).isSome then
    db.media_contents.filter (fun m =>
      m.post_id == postId && !(all_selected_ids.contains m.id) &&
        !(pyStrOpt m.file_path == ""))
  else []

/-- `PostService.create_selection` (lines 232-317).  The deletion of a prior
selection is committed on its own (line 255); everything after it commits
atomically at line 307.  Inserting a tombstone whose `file_path` is NULL
violates the NOT NULL constraint on `unwanted_media.file_path`, so that
commit raises `IntegrityError` (a `SQLAlchemyError`), the handler rolls the
second transaction back to the state after the first commit, and the
function returns `None`. -/
def create_selection (db : DB) (now : Nat) (postId : Nat) (tvId : Nat)
    (image_ids video_ids : Option (List Nat)) : DB × Option (Nat × Nat) :=
  let db1 := delete_prior_selection db postId
  let all_selected_ids := image_ids.getD [] ++ video_ids.getD []
  let cand := unwanted_candidates db1 postId all_selected_ids
  if cand.any (fun m => m.file_path == none) then
    (db1, none)
  else
    let base := db1.next_id + 1 + all_selected_ids.length
    ({ db1 with
        selections := db1.selections ++ [⟨db1.next_id, postId, tvId⟩],
        selected_media := db1.selected_media ++
          all_selected_ids.enum.map
            (fun km => ⟨db1.next_id + 1 + km.1, db1.next_id, km.2⟩),
        text_variations := db1.text_variations.map
          (fun v => if v.id == tvId then { v with is_selected := true } else v),
        media_contents := db1.media_contents.map
          (fun m => if all_selected_ids.contains m.id
            then { m with is_selected := true } else m),
        unwanted_media := db1.unwanted_media ++
          cand.enum.map (fun km =>
            ⟨base + km.1, km.2.id, (km.2.file_path).getD "", postId, now⟩),
        next_id := base + cand.length },
      some (db1.next_id, cand.length))

/-- Outcome of the `choose_variation` endpoint, by HTTP status. -/
inductive SelectOutcome where
  | http404
  | http400
  | http500
  | ok (selection_id : Nat) (unwanted_media_count : Nat)
deriving DecidableEq

/-- `choose_variation` (routes/posts.py lines 235-272): 404 when the post is
missing, 400 when its status is not `completed`, otherwise delegate to
`create_selection` (500 when that returns `None`). -/
def choose_variation (db : DB) (now : Nat) (postId : Nat) (tvId : Nat)
    (image_ids video_ids : Option (List Nat)) : DB × SelectOutcome :=
  match find_post db postId with
  | none => (db, SelectOutcome.http404)
  | some p =>
    if p.status ≠ PostStatus.completed then (db, SelectOutcome.http400)
    else
      match create_selection db now postId tvId image_ids video_ids with
      | (db2, none) => (db2, SelectOutcome.http500)
      | (db2, some sc) => (db2, SelectOutcome.ok sc.1 sc.2)

/-! ## The workflow engine (`services/gemini_agent_service.py`)

External collaborators are oracle parameters, per the specification's
interface-only treatment: `extract` is the link content extractor (returning
`""` on any failure, as `get_text_content_from_website` does), `gateway` is
the text-generation call (`Except.error` models a raised exception),
`image_gen` gives, for the i-th image prompt, either a raised exception or
the storage URL returned by the upload (`none` when the upload swallowed a
`ClientError` and returned `None`). -/

/-- Oracles for the external collaborators of one `generate_post` run. -/
structure Env where
  extract : String → String
  gateway : Except String String
  image_gen : Nat → Except String (Option String)

/-- The optional progress callback: absent, or a function telling for each
step identifier whether the callback raises when invoked on it. -/
def Callback : Type := Option (String → Bool)

/-- `GeminiAgentService._send_progress` (lines 352-365): when a callback is
attached it is invoked and any exception it raises is caught and logged.
The result records the step and whether the event was actually delivered. -/
def send_progress (cb : Callback) (step : String) : String × Bool :=
  (step,
    match cb with
    | none => false
    | some raises => !(raises step))

/-- The context-accumulation loop of `generate_post` (lines 96-113): link
sources contribute their extraction when it is non-empty (Python truthiness),
text sources contribute their content unconditionally. -/
def extracted_contexts (extract : String → String) :
    List DataSourceRow → List String
  | [] => []
  | s :: rest =>
    match s.source_type with
    | DataSourceType.link =>
      let t := extract s.content
      if t = "" then extracted_contexts extract rest
      else t :: extracted_contexts extract rest
    | DataSourceType.text => s.content :: extracted_contexts extract rest

/-- The context string of line 116. -/
def build_context (extract : String → String) (sources : List DataSourceRow) :
    String :=
  String.intercalate "\n\n---\n\n" (extracted_contexts extract sources)

/-- The text-variation loop of `generate_post` (lines 134-148).  Each parsed
variation is subscripted for its number and text (a `KeyError`/`TypeError`
aborts the loop, leaving earlier, already committed inserts in place), then
persisted; each persisted variation emits a progress event. -/
def run_variation_loop (cb : Callback) (postId : Nat) :
    List JVal → DB → List (String × Bool) →
    DB × List (String × Bool) × Option String
  | [], db, evs => (db, evs, none)
  | v :: rest, db, evs =>
    match jSubscript v "variation_number" with
    | Except.error e => (db, evs, some e)
    | Except.ok n =>
      match jSubscript v "text_content" with
      | Except.error e => (db, evs, some e)
      | Except.ok t =>
        let ins := add_text_variation db postId n t
          (some (JVal.jobj [("prompts", JVal.jarr [])]))
        run_variation_loop cb postId rest ins.1
          (evs ++ [send_progress cb "generating_text"])

/-- The image loop of `generate_post` (lines 154-174).  `count` is the
running `mediaCount` (starting at 1), `idx` indexes the oracle.  A raised
generation/upload failure aborts the loop; earlier inserts stay committed. -/
def run_media_loop (env : Env) (postId : Nat) :
    List JVal → Nat → Nat → DB → DB × Option String
  | [], _, _, db => (db, none)
  | v :: rest, count, idx, db =>
    match env.image_gen idx with
    | Except.error e => (db, some e)
    | Except.ok url =>
      let ins := add_media_content db postId MediaType.image count url (some v)
      run_media_loop env postId rest (count + 1) (idx + 1) ins.1

/-- Result of one `generate_post` run: the store afterwards, the boolean the
coroutine returns, the post statuses written during the run (in order), and
the progress events attempted (step, delivered?). -/
structure RunResult where
  db : DB
  success : Bool
  status_writes : List PostStatus
  events : List (String × Bool)

/-- The `except` branch of `generate_post` (lines 189-192): record the error
on the post via `_update_post_error` and report failure.  No status was
written before any failure point, so the write trace is `[failed]`. -/
def fail_run (db : DB) (now : Nat) (postId : Nat) (e : String)
    (evs : List (String × Bool)) : RunResult :=
  let upd := update_post_status db now postId PostStatus.failed none (some e)
  ⟨upd.1, false, [PostStatus.failed], evs⟩

/-- The finalization of a successful run (lines 177-187): status `completed`
with a step description, read back the generated content (a pure read), emit
the final progress event, return `True`. -/
def finish_run (cb : Callback) (db : DB) (now : Nat) (postId : Nat)
    (evs : List (String × Bool)) : RunResult :=
  let upd := update_post_status db now postId PostStatus.completed
    (some "Post generation completed") none
  ⟨upd.1, true, [PostStatus.completed],
    evs ++ [send_progress cb "completed"]⟩

/-- `GeminiAgentService.generate_post` (lines 64-192).  The prompt built from
the context feeds the gateway oracle; the model does not inspect it, matching
the gateway's opaque-collaborator contract. -/
def generate_post (env : Env) (cb : Callback) (now : Nat) (db : DB)
    (postId : Nat) : RunResult :=
  match find_post db postId with
  | none => ⟨db, false, [], []⟩
  | some post =>
    let sources := get_data_sources db postId
    let evs :=
      send_progress cb "generating_text" ::
        sources.map (fun _ => send_progress cb "extracting_context")
    match env.gateway with
    | Except.error e => fail_run db now postId e evs
    | Except.ok raw =>
      match parse_json_from_string (sanitizeResponse raw) with
      | Except.error e => fail_run db now postId e evs
      | Except.ok parsed =>
        match jIterElems (jGetD parsed "variations" (JVal.jarr [])) with
        | Except.error e => fail_run db now postId e evs
        | Except.ok vars =>
          match run_variation_loop cb postId vars db evs with
          | (db1, evs1, some e) => fail_run db1 now postId e evs1
          | (db1, evs1, none) =>
            if post.media_content_needed = MediaType.image ∨
                post.media_content_needed = MediaType.both then
              let evs2 := evs1 ++ [send_progress cb "generating_media"]
              match jIterElems (jGetD parsed "image_prompts" (JVal.jarr [])) with
              | Except.error e => fail_run db1 now postId e evs2
              | Except.ok prompts =>
                match run_media_loop env postId prompts 1 0 db1 with
                | (db2, some e) => fail_run db2 now postId e evs2
                | (db2, none) => finish_run cb db2 now postId evs2
            else finish_run cb db1 now postId evs1

/-! ## Lemmas about the post table -/

theorem find?_id_eq {l : List PostRow} {pid : Nat} {p : PostRow}
    (h : l.find? (fun r => r.id == pid) = some p) : p.id = pid := by
  simpa using List.find?_some h

theorem find?_map_replace (l : List PostRow) (p : PostRow) (pid : Nat)
    (hp : p.id = pid) {q : PostRow}
    (h : l.find? (fun r => r.id == pid) = some q) :
    (l.map (fun r => if r.id == p.id then p else r)).find?
      (fun r => r.id == pid) = some p := by
  induction l with
  | nil => simp at h
  | cons a t ih =>
    by_cases ha : a.id = pid
    · simp only [List.map_cons]
      rw [if_pos (by simpa [hp] using ha)]
      simp [List.find?_cons, hp]
    · rw [List.find?_cons_of_neg _ (by simpa using ha)] at h
      simp only [List.map_cons]
      rw [if_neg (by simpa [hp] using ha)]
      rw [List.find?_cons_of_neg _ (by simpa using ha)]
      exact ih h

theorem map_replace_eq_self {l : List PostRow} {p : PostRow}
    (h : ∀ q ∈ l, q.id = p.id → q = p) :
    l.map (fun r => if r.id == p.id then p else r) = l := by
  induction l with
  | nil => rfl
  | cons a t ih =>
    simp only [List.map_cons]
    have ht : ∀ q ∈ t, q.id = p.id → q = p := fun q hq => h q (by simp [hq])
    rw [ih ht]
    by_cases ha : a.id = p.id
    · rw [if_pos (by simpa using ha), (h a (by simp) ha)]
    · rw [if_neg (by simpa using ha)]

theorem mem_map_replace {l : List PostRow} {p q : PostRow}
    (hq : q ∈ l.map (fun r => if r.id == p.id then p else r))
    (hid : q.id = p.id) : q = p := by
  rcases List.mem_map.1 hq with ⟨r, _, hrq⟩
  by_cases h : r.id = p.id
  · rw [if_pos (by simpa using h)] at hrq
    exact hrq.symm
  · rw [if_neg (by simpa using h)] at hrq
    exact absurd (hrq ▸ hid) h

theorem apply_status_update_id (p : PostRow) (now : Nat) (st : PostStatus)
    (cs em : Option String) :
    (apply_status_update p now st cs em).id = p.id := by
  cases cs <;> cases em <;> simp only [apply_status_update] <;>
    split_ifs <;> rfl

theorem apply_status_update_status (p : PostRow) (now : Nat) (st : PostStatus)
    (cs em : Option String) :
    (apply_status_update p now st cs em).status = st := by
  cases cs <;> cases em <;> simp only [apply_status_update] <;>
    split_ifs <;> rfl

theorem apply_status_update_started_at (p : PostRow) (now : Nat)
    (st : PostStatus) (cs em : Option String) :
    (apply_status_update p now st cs em).started_at =
      (if st = PostStatus.processing_context ∧ p.started_at = none
       then some now else p.started_at) := by
  cases cs <;> cases em <;> simp only [apply_status_update] <;>
    split_ifs <;> simp_all

theorem apply_status_update_completed_at (p : PostRow) (now : Nat)
    (st : PostStatus) (cs em : Option String) :
    (apply_status_update p now st cs em).completed_at =
      (if st = PostStatus.completed ∨ st = PostStatus.failed
       then some now else p.completed_at) := by
  cases cs <;> cases em <;> simp only [apply_status_update] <;>
    split_ifs <;> simp_all

theorem apply_status_update_idem (p : PostRow) (now now2 : Nat)
    (st : PostStatus) (cs em : Option String)
    (h1 : st ≠ PostStatus.completed) (h2 : st ≠ PostStatus.failed) :
    apply_status_update (apply_status_update p now st cs em) now2 st cs em =
      apply_status_update p now st cs em := by
  cases cs <;> cases em <;> simp only [apply_status_update] <;>
    split_ifs <;> simp_all

/-! ## Fixtures -/

/-- A post row with neutral request configuration. -/
def mkPost (id : Nat) (st : PostStatus) (media : MediaType) : PostRow :=
  ⟨id, "tone", media, ContentType.long_form, 3, 3, st, none, none, 0,
    none, none⟩

/-- An empty store whose id generator starts at 100. -/
def emptyDB : DB := ⟨[], [], [], [], [], [], [], 100⟩

/-! ## Claim C9 — `update_post_status` -/

/-- C9, amended: `update_post_status` returns false for an unknown post id;
for a known post it returns true and writes back a row whose status is the
argument, whose `started_at` is stamped exactly when the status becomes
`processing_context` for the first time, and whose `completed_at` is stamped
whenever the status becomes `completed` or `failed`; a repeated call with
identical arguments leaves the store unchanged for every NON-terminal status,
while for `completed`/`failed` it rewrites `completed_at` with the later
clock value (so the call is not idempotent there). -/
theorem c9_update_post_status_contract (db : DB) (now now2 : Nat) (pid : Nat)
    (st : PostStatus) (cs em : Option String) :
    (find_post db pid = none →
      update_post_status db now pid st cs em = (db, false)) ∧
    (∀ p, find_post db pid = some p →
      (update_post_status db now pid st cs em).2 = true ∧
      ∃ p', find_post (update_post_status db now pid st cs em).1 pid = some p' ∧
        p'.status = st ∧
        p'.started_at = (if st = PostStatus.processing_context ∧
            p.started_at = none then some now else p.started_at) ∧
        p'.completed_at = (if st = PostStatus.completed ∨
            st = PostStatus.failed then some now else p.completed_at)) ∧
    (st ≠ PostStatus.completed → st ≠ PostStatus.failed →
      update_post_status (update_post_status db now pid st cs em).1 now2 pid
          st cs em =
        ((update_post_status db now pid st cs em).1,
          (update_post_status db now pid st cs em).2)) := by
  refine ⟨?_, ?_, ?_⟩
  · intro h
    simp [update_post_status, h]
  · intro p hp
    have hid : p.id = pid := find?_id_eq hp
    have hid1 : (apply_status_update p now st cs em).id = pid := by
      rw [apply_status_update_id]; exact hid
    have hcall1 : update_post_status db now pid st cs em =
        (set_post db (apply_status_update p now st cs em), true) := by
      simp [update_post_status, hp]
    have hfind : find_post (update_post_status db now pid st cs em).1 pid =
        some (apply_status_update p now st cs em) := by
      rw [hcall1]
      exact find?_map_replace _ _ _ hid1 hp
    exact ⟨by simp [update_post_status, hp],
      apply_status_update p now st cs em, hfind,
      apply_status_update_status p now st cs em,
      apply_status_update_started_at p now st cs em,
      apply_status_update_completed_at p now st cs em⟩
  · intro h1 h2
    cases hp : find_post db pid with
    | none => simp [update_post_status, hp]
    | some p =>
      have hid : p.id = pid := find?_id_eq hp
      have hid1 : (apply_status_update p now st cs em).id = pid := by
        rw [apply_status_update_id]; exact hid
      have hfind : find_post (set_post db (apply_status_update p now st cs em))
          pid = some (apply_status_update p now st cs em) :=
        find?_map_replace _ _ _ hid1 hp
      have hcall1 : update_post_status db now pid st cs em =
          (set_post db (apply_status_update p now st cs em), true) := by
        simp [update_post_status, hp]
      rw [hcall1]
      have hsame := apply_status_update_idem p now now2 st cs em h1 h2
      have hall : ∀ q ∈ (set_post db (apply_status_update p now st cs em)).posts,
          q.id = (apply_status_update p now st cs em).id → q =
            apply_status_update p now st cs em := by
        intro q hq
        exact mem_map_replace hq
      have hone : set_post (set_post db (apply_status_update p now st cs em))
          (apply_status_update p now st cs em) =
          set_post db (apply_status_update p now st cs em) := by
        show { set_post db (apply_status_update p now st cs em) with
            posts := (set_post db (apply_status_update p now st cs em)).posts.map
              (fun r => if r.id == (apply_status_update p now st cs em).id
                then apply_status_update p now st cs em else r) } =
          set_post db (apply_status_update p now st cs em)
        rw [map_replace_eq_self hall]
      simp only [update_post_status, hfind, hsame, hone]

/-- Witness for `c9_update_post_status_contract` at a concrete store. -/
theorem c9_update_post_status_contract_witness :
    (update_post_status
      { emptyDB with posts := [mkPost 1 PostStatus.pending MediaType.none] }
      6 1 PostStatus.pending none none).2 = true := by
  have h := c9_update_post_status_contract
    { emptyDB with posts := [mkPost 1 PostStatus.pending MediaType.none] }
    6 7 1 PostStatus.pending none none
  exact (h.2.1 (mkPost 1 PostStatus.pending MediaType.none) (by rfl)).1

/-- C9 counterexample: the claim's idempotence clause fails on terminal
statuses.  A post already `completed` with `completed_at = 5` is updated
again with the identical `completed` status at clock 6; the record changes
(`completed_at` becomes 6), so the repeated identical call does not leave
the post record unchanged. -/
theorem c9_counterexample :
    (update_post_status
        { emptyDB with posts :=
            [{ mkPost 1 PostStatus.completed MediaType.none with
                completed_at := some 5 }] }
        6 1 PostStatus.completed none none).2 = true ∧
    (update_post_status
        { emptyDB with posts :=
            [{ mkPost 1 PostStatus.completed MediaType.none with
                completed_at := some 5 }] }
        6 1 PostStatus.completed none none).1.posts ≠
      [{ mkPost 1 PostStatus.completed MediaType.none with
          completed_at := some 5 }] := by
  refine ⟨rfl, ?_⟩
  decide

/-! ## Lemmas about `create_selection` -/

theorem delete_prior_selection_posts (db : DB) (pid : Nat) :
    (delete_prior_selection db pid).posts = db.posts := by
  unfold delete_prior_selection; split <;> rfl

theorem delete_prior_selection_media (db : DB) (pid : Nat) :
    (delete_prior_selection db pid).media_contents = db.media_contents := by
  unfold delete_prior_selection; split <;> rfl

theorem delete_prior_selection_text (db : DB) (pid : Nat) :
    (delete_prior_selection db pid).text_variations = db.text_variations := by
  unfold delete_prior_selection; split <;> rfl

theorem delete_prior_selection_unwanted (db : DB) (pid : Nat) :
    (delete_prior_selection db pid).unwanted_media = db.unwanted_media := by
  unfold delete_prior_selection; split <;> rfl

/-- Characterization of a successful `create_selection` call.  `db1` is the
store after the committed deletion of any prior selection; its media, text
and tombstone tables coincide with those of `db`. -/
theorem create_selection_ok_char (db : DB) (now pid tvId : Nat)
    (ii vi : Option (List Nat)) (db' : DB) (selId cnt : Nat)
    (h : create_selection db now pid tvId ii vi = (db', some (selId, cnt))) :
    (unwanted_candidates (delete_prior_selection db pid) pid
        (ii.getD [] ++ vi.getD [])).any (fun m => m.file_path == none)
      = false ∧
    cnt = (unwanted_candidates (delete_prior_selection db pid) pid
        (ii.getD [] ++ vi.getD [])).length ∧
    db'.media_contents = db.media_contents.map
      (fun m => if (ii.getD [] ++ vi.getD []).contains m.id
        then { m with is_selected := true } else m) ∧
    db'.text_variations = db.text_variations.map
      (fun v => if v.id == tvId then { v with is_selected := true } else v) ∧
    db'.unwanted_media = db.unwanted_media ++
      (unwanted_candidates (delete_prior_selection db pid) pid
          (ii.getD [] ++ vi.getD [])).enum.map
        (fun km =>
          ⟨(delete_prior_selection db pid).next_id + 1 +
              (ii.getD [] ++ vi.getD []).length + km.1,
            km.2.id, (km.2.file_path).getD "", pid, now⟩) ∧
    db'.selections = (delete_prior_selection db pid).selections ++
      [⟨(delete_prior_selection db pid).next_id, pid, tvId⟩] := by
  unfold create_selection at h
  dsimp only at h
  split at h
  · injection h with h1 h2
    cases h2
  · rename_i hany
    injection h with h1 h2
    injection h2 with h2
    injection h2 with h3 h4
    subst h1
    refine ⟨by simpa using hany, h4.symm, ?_, ?_, ?_, ?_⟩
    · rw [← delete_prior_selection_media db pid]
    · rw [← delete_prior_selection_text db pid]
    · rw [← delete_prior_selection_unwanted db pid]
    · rfl

/-! ## Claim C3 — rejection behaviour of the `select` endpoint -/

/-- C3, amended: a `select` call on a missing post is rejected with 404 and a
call on a post whose status is not `completed` is rejected with 400; in both
cases `create_selection` is never reached, the store is returned unchanged —
so no PostSelection row is created and no Post state is mutated.  (The other
half of the original claim is refuted by `c3_counterexample`: a
text-variation id that does not belong to the post is not validated and such
a call succeeds.) -/
theorem c3_select_rejection (db : DB) (now : Nat) (pid tvId : Nat)
    (image_ids video_ids : Option (List Nat)) :
    (find_post db pid = none →
      choose_variation db now pid tvId image_ids video_ids =
        (db, SelectOutcome.http404)) ∧
    (∀ p, find_post db pid = some p → p.status ≠ PostStatus.completed →
      choose_variation db now pid tvId image_ids video_ids =
        (db, SelectOutcome.http400)) := by
  constructor
  · intro h
    simp [choose_variation, h]
  · intro p hp hst
    simp [choose_variation, hp, hst]

/-- Witness for `c3_select_rejection`: a pending post is rejected with 400
and the store is unchanged. -/
theorem c3_select_rejection_witness :
    choose_variation
        { emptyDB with posts := [mkPost 1 PostStatus.pending MediaType.none] }
        0 1 10 none none =
      ({ emptyDB with posts := [mkPost 1 PostStatus.pending MediaType.none] },
        SelectOutcome.http400) := by
  exact (c3_select_rejection
    { emptyDB with posts := [mkPost 1 PostStatus.pending MediaType.none] }
    0 1 10 none none).2 (mkPost 1 PostStatus.pending MediaType.none)
    (by rfl) (by decide)

/-- Store with two completed posts, each owning one text variation; used to
show that `select` does not validate variation ownership. -/
def c3db : DB :=
  { emptyDB with
      posts := [mkPost 1 PostStatus.completed MediaType.none,
                mkPost 2 PostStatus.completed MediaType.none],
      text_variations :=
        [⟨10, 1, JVal.jnum "1", JVal.jstr "a", none, false⟩,
         ⟨20, 2, JVal.jnum "1", JVal.jstr "b", none, false⟩] }

/-- C3 counterexample: selecting, for post 1, the text variation 20 that
belongs to post 2 is NOT rejected — the endpoint answers success and a
PostSelection row referencing the foreign variation is persisted. -/
theorem c3_counterexample :
    (choose_variation c3db 0 1 20 none none).2 = SelectOutcome.ok 100 0 ∧
    (choose_variation c3db 0 1 20 none none).1.selections =
      [⟨100, 1, 20⟩] ∧
    (c3db.text_variations.filter (fun v => v.post_id == 1)).map
      (fun v => v.id) = [10] := by
  exact ⟨rfl, rfl, rfl⟩

/-! ## Claim C7 — at most one selected text variation -/

theorem countP_mark_of_clean (tvId : Nat) (l : List TextVariationRow)
    (hclean : ∀ v ∈ l, v.is_selected = false) :
    (l.map (fun v => if v.id == tvId then { v with is_selected := true }
        else v)).countP (fun v => v.is_selected) =
      l.countP (fun v => v.id == tvId) := by
  rw [List.countP_map]
  apply List.countP_congr
  intro v hv
  have hc := hclean v hv
  by_cases h : v.id = tvId <;> simp [Function.comp, h, hc]

theorem countP_id_le_one (tvId : Nat) (l : List TextVariationRow)
    (hnd : (l.map (fun v => v.id)).Nodup) :
    l.countP (fun v => v.id == tvId) ≤ 1 := by
  induction l with
  | nil => simp
  | cons a t ih =>
    simp only [List.map_cons, List.nodup_cons] at hnd
    by_cases h : a.id = tvId
    · have hzero : t.countP (fun v => v.id == tvId) = 0 := by
        rw [List.countP_eq_zero]
        intro v hv
        simp only [beq_iff_eq]
        intro hveq
        exact hnd.1 (by
          rw [← h] at hveq
          exact hveq ▸ List.mem_map_of_mem (fun v => v.id) hv)
      simp [List.countP_cons, h, hzero]
    · simpa [List.countP_cons, h] using ih hnd.2

/-- C7, amended: after a single successful `select` on a store in which no
text variation is selected, at most one text variation carries
`is_selected = true` (namely the one whose id was chosen — ownership is not
checked).  The original claim's "across every sequence of select calls,
including re-selection" is refuted by `c7_counterexample`: re-selecting with
a different variation id leaves the previously chosen variation's flag set,
so two variations of the post end up selected. -/
theorem c7_single_selection_invariant (db : DB) (now pid tvId : Nat)
    (ii vi : Option (List Nat)) (db' : DB) (selId cnt : Nat)
    (h : create_selection db now pid tvId ii vi = (db', some (selId, cnt)))
    (hclean : ∀ v ∈ db.text_variations, v.is_selected = false)
    (hnd : (db.text_variations.map (fun v => v.id)).Nodup) :
    db'.text_variations.countP (fun v => v.is_selected) ≤ 1 := by
  obtain ⟨-, -, -, htv, -, -⟩ :=
    create_selection_ok_char db now pid tvId ii vi db' selId cnt h
  rw [htv, countP_mark_of_clean tvId _ hclean]
  exact countP_id_le_one tvId _ hnd

/-- Store with one completed post owning two unselected text variations. -/
def c7db : DB :=
  { emptyDB with
      posts := [mkPost 1 PostStatus.completed MediaType.none],
      text_variations :=
        [⟨10, 1, JVal.jnum "1", JVal.jstr "a", none, false⟩,
         ⟨11, 1, JVal.jnum "2", JVal.jstr "b", none, false⟩] }

/-- Witness for `c7_single_selection_invariant` on `c7db`. -/
theorem c7_single_selection_invariant_witness :
    (create_selection c7db 0 1 10 none none).1.text_variations.countP
      (fun v => v.is_selected) ≤ 1 := by
  refine c7_single_selection_invariant c7db 0 1 10 none none
    (create_selection c7db 0 1 10 none none).1 100 0 rfl ?_ (by decide)
  intro v hv
  simp only [c7db, List.mem_cons, List.not_mem_nil, or_false] at hv
  rcases hv with rfl | rfl <;> rfl

/-- C7 counterexample: selecting variation 10 and then re-selecting
variation 11 for the same post leaves BOTH variations flagged
`is_selected = true` (the Reconciler replaces the PostSelection row but
never clears the old flag), violating the at-most-one invariant. -/
theorem c7_counterexample :
    ((create_selection (create_selection c7db 0 1 10 none none).1
        1 1 11 none none).1.text_variations.countP
      (fun v => v.post_id == 1 && v.is_selected)) = 2 ∧
    ((create_selection (create_selection c7db 0 1 10 none none).1
        1 1 11 none none).1.selections = [⟨101, 1, 11⟩]) := by
  exact ⟨rfl, rfl⟩

/-! ## Claim C2 — reconciliation of media after `select` -/

theorem countP_enumFrom_map {α β : Type} (f : Nat × α → β) (p : β → Bool)
    (q : α → Bool) (hpq : ∀ k a, p (f (k, a)) = q a) (l : List α) :
    ∀ n : Nat, ((List.enumFrom n l).map f).countP p = l.countP q := by
  induction l with
  | nil => intro n; rfl
  | cons a t ih =>
    intro n
    have he : List.enumFrom n (a :: t) = (n, a) :: List.enumFrom (n + 1) t :=
      rfl
    rw [he, List.map_cons, List.countP_cons, List.countP_cons, hpq, ih]

theorem countP_filter_eq_of_nodup (f : MediaContentRow → Bool)
    (l : List MediaContentRow) (m : MediaContentRow)
    (hnd : (l.map (fun x => x.id)).Nodup) (hm : m ∈ l) :
    (l.filter f).countP (fun x => x.id == m.id) = if f m then 1 else 0 := by
  induction l with
  | nil => cases hm
  | cons a t ih =>
    simp only [List.map_cons, List.nodup_cons] at hnd
    rcases List.mem_cons.1 hm with rfl | hmt
    · have hzero : (t.filter f).countP (fun x => x.id == m.id) = 0 := by
        rw [List.countP_eq_zero]
        intro x hx
        have hxt := List.mem_of_mem_filter hx
        simp only [beq_iff_eq]
        intro hxm
        exact hnd.1 (hxm ▸ List.mem_map_of_mem (fun x => x.id) hxt)
      by_cases hf : f m
      · simp [List.filter_cons, hf, List.countP_cons, hzero]
      · simp [List.filter_cons, hf, hzero]
    · have hne : (a.id == m.id) = false := by
        simp only [beq_eq_false_iff_ne, ne_eq]
        intro ham
        exact hnd.1 (ham ▸ List.mem_map_of_mem (fun x => x.id) hmt)
      by_cases hf : f a
      · simp [List.filter_cons, hf, List.countP_cons, hne, ih hnd.2 hmt]
      · simp [List.filter_cons, hf, ih hnd.2 hmt]

theorem exists_mem_enumFrom {α : Type} :
    ∀ {l : List α} {m : α}, m ∈ l →
      ∀ n : Nat, ∃ k, (k, m) ∈ List.enumFrom n l
  | [], m, hm, _ => absurd hm (List.not_mem_nil m)
  | a :: t, m, hm, n => by
    rcases List.mem_cons.1 hm with rfl | hmt
    · exact ⟨n, List.mem_cons_self _ _⟩
    · rcases exists_mem_enumFrom hmt (n + 1) with ⟨k, hk⟩
      exact ⟨k, List.mem_cons_of_mem _ hk⟩

theorem unwanted_candidates_delete_prior (db : DB) (pid : Nat)
    (ch : List Nat) :
    unwanted_candidates (delete_prior_selection db pid) pid ch =
      unwanted_candidates db pid ch := by
  unfold unwanted_candidates
  rw [delete_prior_selection_posts, delete_prior_selection_media]

/-- C2, amended: after a successful `select`, the chosen media rows (and
exactly those) are marked `is_selected = true` regardless of their storage
location; the call inserts exactly one tombstone for every row of the post
that is not chosen and whose storage location is present and non-empty, and
no tombstone for a not-chosen row whose location is the empty string; a
not-chosen row with a missing (NULL) location cannot occur in a successful
call (it makes the whole call fail); each tombstone records the row's
location, post and the current time, and the returned count equals the
number of tombstones inserted. -/
theorem c2_selection_reconciliation (db : DB) (now pid tvId : Nat)
    (ii vi : Option (List Nat)) (db' : DB) (selId cnt : Nat)
    (h : create_selection db now pid tvId ii vi = (db', some (selId, cnt)))
    (hnd : (db.media_contents.map (fun m => m.id)).Nodup)
    (hpost : (db.posts.find? (fun p => p.id == pid)).isSome = true) :
    db'.media_contents = db.media_contents.map
      (fun m => if (ii.getD [] ++ vi.getD []).contains m.id
        then { m with is_selected := true } else m) ∧
    db'.unwanted_media.length = db.unwanted_media.length + cnt ∧
    (∀ m ∈ db.media_contents, m.post_id = pid →
      (ii.getD [] ++ vi.getD []).contains m.id = false →
      m.file_path ≠ none ∧
      db'.unwanted_media.countP (fun u => u.media_content_id == m.id) =
        db.unwanted_media.countP (fun u => u.media_content_id == m.id) +
          (if m.file_path.getD "" ≠ "" then 1 else 0)) ∧
    (∀ m ∈ db.media_contents, m.post_id = pid →
      (ii.getD [] ++ vi.getD []).contains m.id = false →
      ∀ s, m.file_path = some s → s ≠ "" →
        ∃ u ∈ db'.unwanted_media, u.media_content_id = m.id ∧
          u.file_path = s ∧ u.post_id = pid ∧ u.marked_at = now) := by
  obtain ⟨hany, hcnt, hmc, -, hu, -⟩ :=
    create_selection_ok_char db now pid tvId ii vi db' selId cnt h
  rw [unwanted_candidates_delete_prior] at hany hcnt hu
  have hcand : unwanted_candidates db pid (ii.getD [] ++ vi.getD []) =
      db.media_contents.filter (fun m =>
        m.post_id == pid && !((ii.getD [] ++ vi.getD []).contains m.id) &&
          !(pyStrOpt m.file_path == "")) := by
    unfold unwanted_candidates
    rw [if_pos hpost]
  have hnone : ∀ m ∈ db.media_contents, m.post_id = pid →
      (ii.getD [] ++ vi.getD []).contains m.id = false →
      m.file_path ≠ none := by
    intro m hm hp hch hfp
    have hch' : m.id ∉ ii.getD [] ∧ m.id ∉ vi.getD [] := by simpa using hch
    have hmem : m ∈ unwanted_candidates db pid (ii.getD [] ++ vi.getD []) := by
      rw [hcand]
      refine List.mem_filter.2 ⟨hm, ?_⟩
      simp [hp, hch'.1, hch'.2, hfp, pyStrOpt]
    have : (unwanted_candidates db pid (ii.getD [] ++ vi.getD [])).any
        (fun m => m.file_path == none) = true :=
      List.any_eq_true.2 ⟨m, hmem, by simp [hfp]⟩
    rw [hany] at this
    cases this
  refine ⟨hmc, ?_, ?_, ?_⟩
  · rw [hu, List.length_append, List.length_map, List.enum_length, hcnt]
  · intro m hm hp hch
    refine ⟨hnone m hm hp hch, ?_⟩
    rw [hu, List.countP_append]
    have hrest : ((unwanted_candidates db pid
          (ii.getD [] ++ vi.getD [])).enum.map
        (fun km => (⟨(delete_prior_selection db pid).next_id + 1 +
            (ii.getD [] ++ vi.getD []).length + km.1,
          km.2.id, (km.2.file_path).getD "", pid, now⟩ :
            UnwantedMediaRow))).countP
        (fun u => u.media_content_id == m.id) =
        (unwanted_candidates db pid (ii.getD [] ++ vi.getD [])).countP
          (fun x => x.id == m.id) :=
      countP_enumFrom_map _ _ _ (fun k a => rfl) _ 0
    rw [hrest, hcand,
      countP_filter_eq_of_nodup _ db.media_contents m hnd hm]
    congr 1
    have hch' : m.id ∉ ii.getD [] ∧ m.id ∉ vi.getD [] := by simpa using hch
    cases hfp : m.file_path with
    | none => exact absurd hfp (hnone m hm hp hch)
    | some s =>
      by_cases hs : s = "" <;>
        simp [hp, hch'.1, hch'.2, hs, pyStrOpt, hfp]
  · intro m hm hp hch s hfp hs
    have hch' : m.id ∉ ii.getD [] ∧ m.id ∉ vi.getD [] := by simpa using hch
    have hmem : m ∈ unwanted_candidates db pid (ii.getD [] ++ vi.getD []) := by
      rw [hcand]
      refine List.mem_filter.2 ⟨hm, ?_⟩
      simp [hp, hch'.1, hch'.2, hfp, pyStrOpt, hs]
    rcases exists_mem_enumFrom hmem 0 with ⟨k, hk⟩
    refine ⟨⟨(delete_prior_selection db pid).next_id + 1 +
        (ii.getD [] ++ vi.getD []).length + k, m.id, (m.file_path).getD "",
        pid, now⟩, ?_, rfl, by rw [hfp]; rfl, rfl, rfl⟩
    rw [hu]
    refine List.mem_append_right _ ?_
    exact List.mem_map.2 ⟨(k, m), hk, rfl⟩

/-- Store for the C2 witness: a completed post with one unchosen media row
carrying a non-empty storage URL. -/
def c2dbW : DB :=
  { emptyDB with
      posts := [mkPost 1 PostStatus.completed MediaType.image],
      text_variations := [⟨20, 1, JVal.jnum "1", JVal.jstr "a", none, false⟩],
      media_contents := [⟨10, 1, MediaType.image, 1, some "u", none, false⟩] }

/-- Witness for `c2_selection_reconciliation` on `c2dbW`. -/
theorem c2_selection_reconciliation_witness :
    (create_selection c2dbW 4 1 20 none none).1.unwanted_media.length =
      c2dbW.unwanted_media.length + 1 := by
  have h := c2_selection_reconciliation c2dbW 4 1 20 none none
    (create_selection c2dbW 4 1 20 none none).1 100 1 rfl (by decide)
    (by rfl)
  exact h.2.1

/-- Store for the C2 counterexample: the single media row of the completed
post has a NULL storage location. -/
def c2db : DB :=
  { emptyDB with
      posts := [mkPost 1 PostStatus.completed MediaType.image],
      text_variations := [⟨20, 1, JVal.jnum "1", JVal.jstr "a", none, false⟩],
      media_contents := [⟨10, 1, MediaType.image, 1, none, none, false⟩] }

/-- C2 counterexample: media row 10 has no storage location (NULL), is
among the chosen ids, and the `select` succeeds — the row ends up
`is_selected = true` (and untombstoned), contradicting the claim that rows
with no storage location are neither selected nor tombstoned. -/
theorem c2_counterexample :
    ((create_selection c2db 3 1 20 (some [10]) none).2).isSome = true ∧
    (create_selection c2db 3 1 20 (some [10]) none).1.media_contents =
      [⟨10, 1, MediaType.image, 1, none, none, true⟩] ∧
    (create_selection c2db 3 1 20 (some [10]) none).1.unwanted_media = [] := by
  exact ⟨rfl, rfl, rfl⟩

/-! ## Lemmas about the workflow engine -/

/-- Both reads of one parsed variation, as `generate_post` performs them
(left-to-right argument evaluation at line 135-141). -/
def variationFields (v : JVal) : Option (JVal × JVal) :=
  match jSubscript v "variation_number", jSubscript v "text_content" with
  | Except.ok n, Except.ok t => some (n, t)
  | _, _ => none

/-- The text-variation rows that a completed variation loop appends, for
parsed (number, text) pairs and a starting fresh id. -/
def mkVariationRows (pid : Nat) : Nat → List (JVal × JVal) →
    List TextVariationRow
  | _, [] => []
  | base, nt :: rest =>
    ⟨base, pid, nt.1, nt.2, some (JVal.jobj [("prompts", JVal.jarr [])]),
      false⟩ :: mkVariationRows pid (base + 1) rest

theorem mkVariationRows_numbers (pid : Nat) (pairs : List (JVal × JVal)) :
    ∀ base, (mkVariationRows pid base pairs).map (fun r => r.variation_number)
      = pairs.map (fun nt => nt.1) := by
  induction pairs with
  | nil => intro base; rfl
  | cons nt rest ih =>
    intro base
    simp only [mkVariationRows, List.map_cons, ih]

theorem mkVariationRows_length (pid : Nat) (pairs : List (JVal × JVal)) :
    ∀ base, (mkVariationRows pid base pairs).length = pairs.length := by
  induction pairs with
  | nil => intro base; rfl
  | cons nt rest ih =>
    intro base
    simp only [mkVariationRows, List.length_cons, ih]

theorem mapM_variationFields_length {vs : List JVal}
    {pairs : List (JVal × JVal)}
    (h : vs.mapM variationFields = some pairs) :
    pairs.length = vs.length := by
  induction vs generalizing pairs with
  | nil => simp only [List.mapM_nil, Option.pure_def, Option.some.injEq] at h
           simp [← h]
  | cons v rest ih =>
    rw [List.mapM_cons] at h
    cases hv : variationFields v with
    | none => rw [hv] at h; simp at h
    | some p =>
      rw [hv] at h
      cases hr : rest.mapM variationFields with
      | none => rw [hr] at h; simp at h
      | some ps =>
        rw [hr] at h
        simp only [Option.pure_def, Option.bind_eq_bind, Option.some_bind,
          Option.some.injEq] at h
        subst h
        simp [ih hr]

/-- A variation loop over well-shaped parsed variations characterized in
full: the rows are appended in order, one progress event is attempted per
row, and no exception escapes. -/
theorem run_variation_loop_ok (cb : Callback) (pid : Nat) :
    ∀ (vs : List JVal) (db : DB) (evs : List (String × Bool))
      (pairs : List (JVal × JVal)),
      vs.mapM variationFields = some pairs →
      run_variation_loop cb pid vs db evs =
        ({ db with
            text_variations := db.text_variations ++
              mkVariationRows pid db.next_id pairs,
            next_id := db.next_id + pairs.length },
          evs ++ List.replicate vs.length (send_progress cb "generating_text"),
          none) := by
  intro vs
  induction vs with
  | nil =>
    intro db evs pairs h
    simp only [List.mapM_nil, Option.pure_def, Option.some.injEq] at h
    subst h
    simp [run_variation_loop, mkVariationRows]
  | cons v rest ih =>
    intro db evs pairs h
    rw [List.mapM_cons] at h
    cases hv : variationFields v with
    | none => rw [hv] at h; simp at h
    | some p =>
      rw [hv] at h
      cases hr : rest.mapM variationFields with
      | none => rw [hr] at h; simp at h
      | some ps =>
        rw [hr] at h
        simp only [Option.pure_def, Option.bind_eq_bind, Option.some_bind,
          Option.some.injEq] at h
        subst h
        have hn : jSubscript v "variation_number" = Except.ok p.1 ∧
            jSubscript v "text_content" = Except.ok p.2 := by
          unfold variationFields at hv
          cases h1 : jSubscript v "variation_number" with
          | error e => rw [h1] at hv; cases hv
          | ok n =>
            cases h2 : jSubscript v "text_content" with
            | error e => rw [h1, h2] at hv; cases hv
            | ok t =>
              rw [h1, h2] at hv
              cases hv
              exact ⟨rfl, rfl⟩
        simp only [run_variation_loop, hn.1, hn.2, add_text_variation]
        rw [ih _ _ ps hr]
        simp only [List.length_cons, List.replicate_succ, Prod.mk.injEq,
          and_true]
        constructor
        · simp only [DB.mk.injEq, true_and, and_true]
          constructor
          · simp [mkVariationRows, List.append_assoc]
          · omega
        · simp

/-- The image loop touches only the media table and the id generator. -/
theorem run_media_loop_preserves (env : Env) (pid : Nat) :
    ∀ (vs : List JVal) (c i : Nat) (db : DB),
      (run_media_loop env pid vs c i db).1.posts = db.posts ∧
      (run_media_loop env pid vs c i db).1.text_variations =
        db.text_variations := by
  intro vs
  induction vs with
  | nil => intro c i db; exact ⟨rfl, rfl⟩
  | cons v rest ih =>
    intro c i db
    simp only [run_media_loop]
    cases env.image_gen i with
    | error e => exact ⟨rfl, rfl⟩
    | ok url => exact ih (c + 1) (i + 1) _

theorem update_post_status_tables (db : DB) (now pid : Nat)
    (st : PostStatus) (cs em : Option String) :
    (update_post_status db now pid st cs em).1.text_variations =
        db.text_variations ∧
    (update_post_status db now pid st cs em).1.media_contents =
        db.media_contents ∧
    (update_post_status db now pid st cs em).1.unwanted_media =
        db.unwanted_media ∧
    (update_post_status db now pid st cs em).1.selections = db.selections := by
  unfold update_post_status
  cases find_post db pid <;> exact ⟨rfl, rfl, rfl, rfl⟩

/-- Shape analysis of `generate_post`: every run either reports a missing
post, or ends through the single failure handler, or through the success
finalizer. -/
theorem generate_post_cases (env : Env) (cb : Callback) (now : Nat) (db : DB)
    (pid : Nat) :
    (generate_post env cb now db pid = ⟨db, false, [], []⟩ ∧
      find_post db pid = none) ∨
    (∃ db1 e evs, generate_post env cb now db pid =
      fail_run db1 now pid e evs) ∨
    (∃ db1 evs, generate_post env cb now db pid =
      finish_run cb db1 now pid evs) := by
  cases hf : find_post db pid with
  | none =>
    refine Or.inl ⟨?_, rfl⟩
    simp only [generate_post, hf]
  | some p =>
    cases hg : env.gateway with
    | error e =>
      refine Or.inr (Or.inl ⟨db, e, (send_progress cb "generating_text" ::
          (get_data_sources db pid).map
            (fun _ => send_progress cb "extracting_context")), ?_⟩)
      simp only [generate_post, hf, hg]
    | ok raw =>
      cases hp : parse_json_from_string (sanitizeResponse raw) with
      | error e =>
        refine Or.inr (Or.inl ⟨db, e, (send_progress cb "generating_text" ::
          (get_data_sources db pid).map
            (fun _ => send_progress cb "extracting_context")), ?_⟩)
        simp only [generate_post, hf, hg, hp]
      | ok parsed =>
        cases hv : jIterElems (jGetD parsed "variations" (JVal.jarr [])) with
        | error e =>
          refine Or.inr (Or.inl ⟨db, e, (send_progress cb "generating_text" ::
          (get_data_sources db pid).map
            (fun _ => send_progress cb "extracting_context")), ?_⟩)
          simp only [generate_post, hf, hg, hp, hv]
        | ok vars =>
          rcases hloop : run_variation_loop cb pid vars db
              (send_progress cb "generating_text" ::
                (get_data_sources db pid).map
                  (fun _ => send_progress cb "extracting_context")) with
            ⟨db1, evs1, err1⟩
          cases err1 with
          | some e =>
            refine Or.inr (Or.inl ⟨db1, e, evs1, ?_⟩)
            simp only [generate_post, hf, hg, hp, hv, hloop]
          | none =>
            by_cases hm : p.media_content_needed = MediaType.image ∨
                p.media_content_needed = MediaType.both
            · cases hi : jIterElems (jGetD parsed "image_prompts"
                  (JVal.jarr [])) with
              | error e =>
                refine Or.inr (Or.inl
                  ⟨db1, e, evs1 ++ [send_progress cb "generating_media"], ?_⟩)
                simp only [generate_post, hf, hg, hp, hv, hloop, hi,
                  if_pos hm]
              | ok prompts =>
                rcases hml : run_media_loop env pid prompts 1 0 db1 with
                  ⟨db2, err2⟩
                cases err2 with
                | some e =>
                  refine Or.inr (Or.inl
                    ⟨db2, e, evs1 ++ [send_progress cb "generating_media"], ?_⟩)
                  simp only [generate_post, hf, hg, hp, hv, hloop, hi,
                    if_pos hm, hml]
                | none =>
                  refine Or.inr (Or.inr
                    ⟨db2, evs1 ++ [send_progress cb "generating_media"], ?_⟩)
                  simp only [generate_post, hf, hg, hp, hv, hloop, hi,
                    if_pos hm, hml]
            · refine Or.inr (Or.inr ⟨db1, evs1, ?_⟩)
              simp only [generate_post, hf, hg, hp, hv, hloop, if_neg hm]

/-! ## Claim C1 — the status lifecycle of a run -/

/-- C1, amended: the workflow engine never persists the intermediate
statuses.  Every run writes either nothing (unknown post id), exactly
`[failed]` (any failure), or exactly `[completed]` (success): a successful
run sets `completed` directly without passing through `processing_context`,
`generating_text` or `generating_media` (those names are only progress-event
identifiers), and a failing run writes `failed` regardless of the post's
current status — including from the terminal statuses, since re-running is
possible. -/
theorem c1_status_lifecycle (env : Env) (cb : Callback) (now : Nat) (db : DB)
    (pid : Nat) :
    ((generate_post env cb now db pid).success = true →
      (generate_post env cb now db pid).status_writes =
        [PostStatus.completed]) ∧
    ((generate_post env cb now db pid).success = false →
      (generate_post env cb now db pid).status_writes = [] ∨
      (generate_post env cb now db pid).status_writes = [PostStatus.failed]) ∧
    PostStatus.processing_context ∉
      (generate_post env cb now db pid).status_writes ∧
    PostStatus.generating_text ∉
      (generate_post env cb now db pid).status_writes ∧
    PostStatus.generating_media ∉
      (generate_post env cb now db pid).status_writes := by
  rcases generate_post_cases env cb now db pid with ⟨h, -⟩ | ⟨db1, e, evs, h⟩ |
    ⟨db1, evs, h⟩ <;> rw [h] <;> simp [fail_run, finish_run]

/-- Witness for `c1_status_lifecycle`: the first implication discharged on a
concrete successful run. -/
theorem c1_status_lifecycle_witness :
    (generate_post
        ⟨fun _ => "", Except.ok
          "\x7b\"variations\": [], \"image_prompts\": []\x7d",
          fun _ => Except.error "img"⟩
        none 7 { emptyDB with posts := [mkPost 1 PostStatus.pending MediaType.none] }
        1).status_writes = [PostStatus.completed] := by
  exact (c1_status_lifecycle
    ⟨fun _ => "", Except.ok "\x7b\"variations\": [], \"image_prompts\": []\x7d",
      fun _ => Except.error "img"⟩
    none 7 { emptyDB with posts := [mkPost 1 PostStatus.pending MediaType.none] }
    1).1 (by rfl)

/-- C1 counterexample: (a) a successful run on a `pending` post writes only
`completed` — the status never passes through `processing_context`,
`generating_text` or `generating_media`; (b) a failing re-run on a post that
is already terminal (`completed`) writes `failed`, i.e. a transition leaves
a terminal state. -/
theorem c1_counterexample :
    ((generate_post
        ⟨fun _ => "", Except.ok
          "\x7b\"variations\": [], \"image_prompts\": []\x7d",
          fun _ => Except.error "img"⟩
        none 7 { emptyDB with posts := [mkPost 1 PostStatus.pending MediaType.none] }
        1).success = true ∧
      (generate_post
        ⟨fun _ => "", Except.ok
          "\x7b\"variations\": [], \"image_prompts\": []\x7d",
          fun _ => Except.error "img"⟩
        none 7 { emptyDB with posts := [mkPost 1 PostStatus.pending MediaType.none] }
        1).status_writes = [PostStatus.completed]) ∧
    ((generate_post
        ⟨fun _ => "", Except.error "boom", fun _ => Except.error "img"⟩
        none 8 { emptyDB with posts := [mkPost 1 PostStatus.completed MediaType.none] }
        1).success = false ∧
      (generate_post
        ⟨fun _ => "", Except.error "boom", fun _ => Except.error "img"⟩
        none 8 { emptyDB with posts := [mkPost 1 PostStatus.completed MediaType.none] }
        1).status_writes = [PostStatus.failed]) := by
  exact ⟨⟨rfl, rfl⟩, ⟨rfl, rfl⟩⟩

/-! ## Claim C5 — unparseable gateway output is fatal -/

/-- C5, confirmed: when the (sanitized) gateway text response yields no
decodable JSON object, the run takes the single failure path: the post is
moved to `failed` with the error message recorded and `completed_at`
stamped, no text-variation row is created by the run, and `generate_post`
returns an unsuccessful result (the embedding is a total function — the
engine converts the failure instead of raising past its boundary). -/
theorem c5_parse_failure_fatal (env : Env) (cb : Callback) (now : Nat)
    (db : DB) (pid : Nat) (p : PostRow) (raw e : String)
    (hfind : find_post db pid = some p)
    (hgw : env.gateway = Except.ok raw)
    (hparse : parse_json_from_string (sanitizeResponse raw) =
      Except.error e) :
    (generate_post env cb now db pid).success = false ∧
    (generate_post env cb now db pid).status_writes = [PostStatus.failed] ∧
    (generate_post env cb now db pid).db.text_variations =
      db.text_variations ∧
    find_post (generate_post env cb now db pid).db pid =
      some { p with
              status := PostStatus.failed,
              error_message := some e,
              completed_at := some now } := by
  have hrow : apply_status_update p now PostStatus.failed none (some e) =
      { p with
          status := PostStatus.failed,
          error_message := some e,
          completed_at := some now } := by
    simp [apply_status_update]
  have hgen : generate_post env cb now db pid =
      fail_run db now pid e
        (send_progress cb "generating_text" ::
          (get_data_sources db pid).map
            (fun _ => send_progress cb "extracting_context")) := by
    simp only [generate_post, hfind, hgw, hparse]
  rw [hgen]
  refine ⟨rfl, rfl, ?_, ?_⟩
  · exact (update_post_status_tables db now pid PostStatus.failed none
      (some e)).1
  · show find_post (update_post_status db now pid PostStatus.failed none
      (some e)).1 pid = _
    have hid : p.id = pid := find?_id_eq hfind
    have hid1 : (apply_status_update p now PostStatus.failed none
        (some e)).id = pid := by
      rw [apply_status_update_id]; exact hid
    have := find?_map_replace db.posts
      (apply_status_update p now PostStatus.failed none (some e)) pid hid1
      hfind
    simp only [update_post_status, hfind]
    rw [← hrow]
    exact this

/-- Witness for `c5_parse_failure_fatal`: a garbled gateway response on a
concrete store. -/
theorem c5_parse_failure_fatal_witness :
    (generate_post ⟨fun _ => "", Except.ok "garbled output, no json",
        fun _ => Except.error "img"⟩
      none 9 { emptyDB with posts := [mkPost 1 PostStatus.pending MediaType.none] }
      1).success = false := by
  exact (c5_parse_failure_fatal
    ⟨fun _ => "", Except.ok "garbled output, no json",
      fun _ => Except.error "img"⟩
    none 9 { emptyDB with posts := [mkPost 1 PostStatus.pending MediaType.none] }
    1 (mkPost 1 PostStatus.pending MediaType.none) "garbled output, no json"
    "No JSON object found in the input string." (by rfl) (by rfl) (by rfl)).1

/-! ## Claim C10 — progress delivery cannot alter the engine -/

/-- The variation loop's store, error outcome and attempted event steps do
not depend on the callback (only the per-event delivered flags do). -/
theorem run_variation_loop_compare (cb1 cb2 : Callback) (pid : Nat) :
    ∀ (vs : List JVal) (db : DB) (evs1 evs2 : List (String × Bool)),
      evs1.map Prod.fst = evs2.map Prod.fst →
      (run_variation_loop cb1 pid vs db evs1).1 =
        (run_variation_loop cb2 pid vs db evs2).1 ∧
      (run_variation_loop cb1 pid vs db evs1).2.2 =
        (run_variation_loop cb2 pid vs db evs2).2.2 ∧
      (run_variation_loop cb1 pid vs db evs1).2.1.map Prod.fst =
        (run_variation_loop cb2 pid vs db evs2).2.1.map Prod.fst := by
  intro vs
  induction vs with
  | nil =>
    intro db evs1 evs2 hev
    exact ⟨rfl, rfl, hev⟩
  | cons v rest ih =>
    intro db evs1 evs2 hev
    cases hn : jSubscript v "variation_number" with
    | error e => simpa [run_variation_loop, hn] using hev
    | ok n =>
      cases ht : jSubscript v "text_content" with
      | error e => simpa [run_variation_loop, hn, ht] using hev
      | ok t =>
        simp only [run_variation_loop, hn, ht]
        exact ih _ _ _ (by simp [hev, send_progress])

/-- C10, confirmed: the outcome of a run — the resulting store, the boolean
result, the statuses written, and even the sequence of step identifiers for
which delivery is attempted — is identical whatever the progress callback
does (absent, delivering, or raising on every call); only the per-event
delivered flags can differ, because `_send_progress` swallows every
callback exception. -/
theorem c10_progress_noninterference (env : Env) (now : Nat) (db : DB)
    (pid : Nat) (cb1 cb2 : Callback) :
    (generate_post env cb1 now db pid).db =
      (generate_post env cb2 now db pid).db ∧
    (generate_post env cb1 now db pid).success =
      (generate_post env cb2 now db pid).success ∧
    (generate_post env cb1 now db pid).status_writes =
      (generate_post env cb2 now db pid).status_writes ∧
    (generate_post env cb1 now db pid).events.map Prod.fst =
      (generate_post env cb2 now db pid).events.map Prod.fst := by
  cases hf : find_post db pid with
  | none => simp [generate_post, hf]
  | some p =>
    have hev0 : (send_progress cb1 "generating_text" ::
        (get_data_sources db pid).map
          (fun _ => send_progress cb1 "extracting_context")).map Prod.fst =
        (send_progress cb2 "generating_text" ::
          (get_data_sources db pid).map
            (fun _ => send_progress cb2 "extracting_context")).map
          Prod.fst := by
      simp [send_progress]
    cases hg : env.gateway with
    | error e =>
      simp only [generate_post, hf, hg, fail_run]
      simpa using hev0
    | ok raw =>
      cases hp : parse_json_from_string (sanitizeResponse raw) with
      | error e =>
        simp only [generate_post, hf, hg, hp, fail_run]
        simpa using hev0
      | ok parsed =>
        cases hv : jIterElems (jGetD parsed "variations" (JVal.jarr [])) with
        | error e =>
          simp only [generate_post, hf, hg, hp, hv, fail_run]
          simpa using hev0
        | ok vars =>
          obtain ⟨hdb, herr, hevs⟩ := run_variation_loop_compare cb1 cb2 pid
            vars db
            (send_progress cb1 "generating_text" ::
              (get_data_sources db pid).map
                (fun _ => send_progress cb1 "extracting_context"))
            (send_progress cb2 "generating_text" ::
              (get_data_sources db pid).map
                (fun _ => send_progress cb2 "extracting_context")) hev0
          rcases h1 : run_variation_loop cb1 pid vars db
              (send_progress cb1 "generating_text" ::
                (get_data_sources db pid).map
                  (fun _ => send_progress cb1 "extracting_context")) with
            ⟨db1, evsA, err1⟩
          rcases h2 : run_variation_loop cb2 pid vars db
              (send_progress cb2 "generating_text" ::
                (get_data_sources db pid).map
                  (fun _ => send_progress cb2 "extracting_context")) with
            ⟨db2, evsB, err2⟩
          rw [h1, h2] at hdb herr hevs
          simp only at hdb herr hevs
          subst hdb
          cases err1 with
          | some e =>
            cases herr
            simp only [generate_post, hf, hg, hp, hv, h1, h2, fail_run]
            simpa using hevs
          | none =>
            cases herr
            by_cases hm : p.media_content_needed = MediaType.image ∨
                p.media_content_needed = MediaType.both
            · have hevm : (evsA ++ [send_progress cb1 "generating_media"]).map
                  Prod.fst =
                  (evsB ++ [send_progress cb2 "generating_media"]).map
                    Prod.fst := by
                simp [hevs, send_progress]
              cases hi : jIterElems (jGetD parsed "image_prompts"
                  (JVal.jarr [])) with
              | error e =>
                simp only [generate_post, hf, hg, hp, hv, h1, h2, hi,
                  if_pos hm, fail_run]
                simpa using hevm
              | ok prompts =>
                rcases hml : run_media_loop env pid prompts 1 0 db1 with
                  ⟨db2m, err2m⟩
                cases err2m with
                | some e =>
                  simp only [generate_post, hf, hg, hp, hv, h1, h2, hi,
                    if_pos hm, hml, fail_run]
                  simpa using hevm
                | none =>
                  simp only [generate_post, hf, hg, hp, hv, h1, h2, hi,
                    if_pos hm, hml, finish_run]
                  simp [send_progress, hevs]
            · simp only [generate_post, hf, hg, hp, hv, h1, h2, if_neg hm,
                finish_run]
              simp [send_progress, hevs]

/-! ## Claim C4 — persisted variation numbers -/

theorem fail_run_text (db : DB) (now pid : Nat) (e : String)
    (evs : List (String × Bool)) :
    (fail_run db now pid e evs).db.text_variations = db.text_variations :=
  (update_post_status_tables db now pid PostStatus.failed none (some e)).1

theorem finish_run_text (cb : Callback) (db : DB) (now pid : Nat)
    (evs : List (String × Bool)) :
    (finish_run cb db now pid evs).db.text_variations =
      db.text_variations :=
  (update_post_status_tables db now pid PostStatus.completed
    (some "Post generation completed") none).1

/-- C4, amended: for every workflow run whose gateway response parses and
whose parsed variations are all well-shaped, the text-variation rows
persisted by the run are appended in response order, one row per parsed
variation (K rows for K variations), and their sequence numbers are exactly
the `variation_number` values carried by the response — the engine does not
renumber them to `1..K`. -/
theorem c4_variation_numbers (env : Env) (cb : Callback) (now : Nat)
    (db : DB) (pid : Nat) (p : PostRow) (raw : String) (parsed : JVal)
    (vars : List JVal) (pairs : List (JVal × JVal))
    (hfind : find_post db pid = some p)
    (hgw : env.gateway = Except.ok raw)
    (hparse : parse_json_from_string (sanitizeResponse raw) =
      Except.ok parsed)
    (hvars : jIterElems (jGetD parsed "variations" (JVal.jarr [])) =
      Except.ok vars)
    (hshape : vars.mapM variationFields = some pairs) :
    (generate_post env cb now db pid).db.text_variations =
      db.text_variations ++ mkVariationRows pid db.next_id pairs ∧
    (mkVariationRows pid db.next_id pairs).map
      (fun r => r.variation_number) = pairs.map (fun nt => nt.1) ∧
    pairs.length = vars.length := by
  refine ⟨?_, mkVariationRows_numbers pid pairs db.next_id,
    mapM_variationFields_length hshape⟩
  have hloop := run_variation_loop_ok cb pid vars db
    (send_progress cb "generating_text" ::
      (get_data_sources db pid).map
        (fun _ => send_progress cb "extracting_context")) pairs hshape
  simp only [generate_post, hfind, hgw, hparse, hvars, hloop]
  obtain ⟨db1, hdb1⟩ : ∃ db1, ({ db with
      text_variations := db.text_variations ++
        mkVariationRows pid db.next_id pairs,
      next_id := db.next_id + pairs.length } : DB) = db1 := ⟨_, rfl⟩
  rw [hdb1]
  have htv1 : db1.text_variations =
      db.text_variations ++ mkVariationRows pid db.next_id pairs := by
    rw [← hdb1]
  by_cases hm : p.media_content_needed = MediaType.image ∨
      p.media_content_needed = MediaType.both
  · rw [if_pos hm]
    cases hi : jIterElems (jGetD parsed "image_prompts" (JVal.jarr [])) with
    | error e =>
      simp only [fail_run_text]
      exact htv1
    | ok prompts =>
      rcases hml : run_media_loop env pid prompts 1 0 db1 with ⟨db2, err2⟩
      have hpres := (run_media_loop_preserves env pid prompts 1 0 db1).2
      rw [hml] at hpres
      simp only at hpres
      cases err2 with
      | some e =>
        simp only [hml, fail_run_text]
        rw [hpres]
        exact htv1
      | none =>
        simp only [hml, finish_run_text]
        rw [hpres]
        exact htv1
  · rw [if_neg hm]
    simp only [finish_run_text]
    exact htv1

/-- Concrete parsed gateway response for the C4 witness. -/
def c4raw : String :=
  "\x7b\"variations\": [\x7b\"variation_number\": 1, \"text_content\": \"a\"\x7d, \x7b\"variation_number\": 2, \"text_content\": \"b\"\x7d], \"image_prompts\": []\x7d"

/-- The JSON value `c4raw` decodes to. -/
def c4parsed : JVal :=
  JVal.jobj
    [("variations", JVal.jarr
        [JVal.jobj [("variation_number", JVal.jnum "1"),
                    ("text_content", JVal.jstr "a")],
         JVal.jobj [("variation_number", JVal.jnum "2"),
                    ("text_content", JVal.jstr "b")]]),
     ("image_prompts", JVal.jarr [])]

/-- The (number, text) pairs of `c4parsed`. -/
def c4pairs : List (JVal × JVal) :=
  [(JVal.jnum "1", JVal.jstr "a"), (JVal.jnum "2", JVal.jstr "b")]

/-- Store and oracles for the C4 witness. -/
def c4db : DB :=
  { emptyDB with posts := [mkPost 1 PostStatus.pending MediaType.none] }

/-- Oracles delivering `c4raw` from the gateway. -/
def c4env : Env := ⟨fun _ => "", Except.ok c4raw, fun _ => Except.error "img"⟩

set_option maxRecDepth 4000 in
/-- Witness for `c4_variation_numbers` on a concrete two-variation run. -/
theorem c4_variation_numbers_witness :
    (generate_post c4env none 5 c4db 1).db.text_variations =
      c4db.text_variations ++ mkVariationRows 1 c4db.next_id c4pairs := by
  exact (c4_variation_numbers c4env none 5 c4db 1
    (mkPost 1 PostStatus.pending MediaType.none) c4raw c4parsed
    [JVal.jobj [("variation_number", JVal.jnum "1"),
                ("text_content", JVal.jstr "a")],
     JVal.jobj [("variation_number", JVal.jnum "2"),
                ("text_content", JVal.jstr "b")]] c4pairs
    (by rfl) (by rfl) (by rfl) (by rfl) (by rfl)).1

/-- Gateway response whose single variation is numbered 7. -/
def c4rawX : String :=
  "\x7b\"variations\": [\x7b\"variation_number\": 7, \"text_content\": \"t\"\x7d], \"image_prompts\": []\x7d"

/-- C4 counterexample: a successful run whose parsed response contains one
variation numbered 7 persists the sequence-number set `\x7b7\x7d`, not
`\x7b1..K\x7d = \x7b1\x7d`. -/
theorem c4_counterexample :
    (generate_post ⟨fun _ => "", Except.ok c4rawX, fun _ =>
        Except.error "img"⟩ none 5 c4db 1).success = true ∧
    ((generate_post ⟨fun _ => "", Except.ok c4rawX, fun _ =>
        Except.error "img"⟩ none 5 c4db 1).db.text_variations.map
      (fun r => r.variation_number)) = [JVal.jnum "7"] ∧
    JVal.jnum "7" ≠ JVal.jnum "1" := by
  refine ⟨rfl, rfl, ?_⟩
  intro h
  injection h with h'
  exact absurd h' (by decide)

/-! ## Claim C8 — context extraction -/

/-- The Content Extractor contract of specification §4.2, as one function:
a `text` source yields its content verbatim, a `link` source yields the
(possibly empty) extraction result. -/
def spec_extract (extract : String → String) (s : DataSourceRow) : String :=
  match s.source_type with
  | DataSourceType.text => s.content
  | DataSourceType.link => extract s.content

theorem extracted_contexts_eq_filter (extract : String → String) :
    ∀ sources : List DataSourceRow,
      (∀ s ∈ sources, s.source_type = DataSourceType.text →
        s.content ≠ "") →
      extracted_contexts extract sources =
        (sources.map (spec_extract extract)).filter (fun t => !(t == "")) := by
  intro sources
  induction sources with
  | nil => intro _; rfl
  | cons s rest ih =>
    intro htext
    have hrest := fun q hq => htext q (List.mem_cons_of_mem s hq)
    cases hs : s.source_type with
    | text =>
      have hne : s.content ≠ "" := htext s (List.mem_cons_self s rest) hs
      simp only [extracted_contexts, hs, List.map_cons, spec_extract,
        List.filter_cons]
      rw [ih hrest]
      simp [hne]
    | link =>
      simp only [extracted_contexts, hs, List.map_cons, spec_extract,
        List.filter_cons]
      by_cases hl : extract s.content = ""
      · rw [if_pos hl, ih hrest]
        simp [hl]
      · rw [if_neg hl, ih hrest]
        simp [hl]

/-- C8, confirmed (using the data-model invariant that a text source's
content is non-empty, which creation-time validation enforces): the context
is the separator-joined concatenation of exactly the non-empty extractor
results, in insertion order; if every source yields empty text the context
is the empty string; and such a run still proceeds to text generation and
completes successfully rather than failing. -/
theorem c8_context_extraction (env : Env) (cb : Callback) (now : Nat)
    (db : DB) (pid : Nat) (p : PostRow) (raw : String) (parsed : JVal)
    (vars : List JVal) (pairs : List (JVal × JVal))
    (hfind : find_post db pid = some p)
    (hgw : env.gateway = Except.ok raw)
    (hparse : parse_json_from_string (sanitizeResponse raw) =
      Except.ok parsed)
    (hvars : jIterElems (jGetD parsed "variations" (JVal.jarr [])) =
      Except.ok vars)
    (hshape : vars.mapM variationFields = some pairs)
    (hmedia : ¬ (p.media_content_needed = MediaType.image ∨
      p.media_content_needed = MediaType.both))
    (htext : ∀ s ∈ get_data_sources db pid,
      s.source_type = DataSourceType.text → s.content ≠ "") :
    build_context env.extract (get_data_sources db pid) =
      String.intercalate "\n\n---\n\n"
        (((get_data_sources db pid).map (spec_extract env.extract)).filter
          (fun t => !(t == ""))) ∧
    (((get_data_sources db pid).map (spec_extract env.extract)).all
        (fun t => t == "") = true →
      build_context env.extract (get_data_sources db pid) = "") ∧
    (generate_post env cb now db pid).success = true := by
  have hfilter := extracted_contexts_eq_filter env.extract
    (get_data_sources db pid) htext
  refine ⟨by rw [build_context, hfilter], ?_, ?_⟩
  · intro hall
    rw [build_context, hfilter]
    have : ((get_data_sources db pid).map (spec_extract env.extract)).filter
        (fun t => !(t == "")) = [] := by
      rw [List.filter_eq_nil_iff]
      intro t ht
      have := List.all_eq_true.1 hall t ht
      simp only [this, Bool.not_true, Bool.false_eq_true, not_false_eq_true]
    rw [this]
    rfl
  · have hloop := run_variation_loop_ok cb pid vars db
      (send_progress cb "generating_text" ::
        (get_data_sources db pid).map
          (fun _ => send_progress cb "extracting_context")) pairs hshape
    simp only [generate_post, hfind, hgw, hparse, hvars, hloop, if_neg hmedia]
    rfl

/-- Store for the C8 witness: one completed-pending post with a single link
source whose extraction yields empty text. -/
def c8db : DB :=
  { emptyDB with
      posts := [mkPost 1 PostStatus.pending MediaType.none],
      data_sources := [⟨50, 1, DataSourceType.link, "https://x.example"⟩] }

/-- Witness for `c8_context_extraction`: the all-sources-empty case still
completes. -/
theorem c8_context_extraction_witness :
    build_context (fun _ => "") (get_data_sources c8db 1) = "" ∧
    (generate_post ⟨fun _ => "", Except.ok
        "\x7b\"variations\": [], \"image_prompts\": []\x7d",
        fun _ => Except.error "img"⟩ none 6 c8db 1).success = true := by
  have h := c8_context_extraction
    ⟨fun _ => "", Except.ok "\x7b\"variations\": [], \"image_prompts\": []\x7d",
      fun _ => Except.error "img"⟩ none 6 c8db 1
    (mkPost 1 PostStatus.pending MediaType.none)
    "\x7b\"variations\": [], \"image_prompts\": []\x7d"
    (JVal.jobj [("variations", JVal.jarr []), ("image_prompts", JVal.jarr [])])
    [] [] (by rfl) (by rfl) (by rfl) (by rfl) (by rfl)
    (by decide)
    (by
      intro s hs hty
      have hs' : s ∈
          [(⟨50, 1, DataSourceType.link, "https://x.example"⟩ :
            DataSourceRow)] := hs
      obtain rfl := List.mem_singleton.1 hs'
      exact absurd hty (by decide))
  exact ⟨h.2.1 (by rfl), h.2.2⟩

/-! ## Claim C6 — sanitization and JSON extraction -/

/-- Helper for the specification-side extraction: consume characters while
tracking brace depth, returning the block that closes the first opening
brace. -/
def braceBalanceScan : List Char → Nat → List Char → Option (List Char)
  | [], _, _ => none
  | c :: rest, depth, acc =>
    if c = '\x7b' then braceBalanceScan rest (depth + 1) (c :: acc)
    else if c = '\x7d' then
      if depth = 1 then some (c :: acc).reverse
      else if depth = 0 then none
      else braceBalanceScan rest (depth - 1) (c :: acc)
    else braceBalanceScan rest depth (c :: acc)

/-- The extraction the specification describes: "the first top-level
`\x7b...\x7d` object found in the response".  Comparison definition for the
refinement check against the implementation's regex span
(`pyFindJsonSpan`). -/
def spec_first_top_level_object : List Char → Option (List Char)
  | [] => none
  | c :: rest =>
    if c = '\x7b' then braceBalanceScan (c :: rest) 0 []
    else spec_first_top_level_object rest

theorem sanitizeChars_clean (cs : List Char) :
    ∀ c ∈ sanitizeChars cs,
      c ≠ '\n' ∧ c ≠ '\r' ∧ c ≠ '\t' ∧ c ≠ '\x23' := by
  intro c hc
  rcases List.mem_flatMap.1 hc with ⟨a, -, hca⟩
  unfold sanitizeChar at hca
  split_ifs at hca with h1 h2
  · rcases List.mem_singleton.1 hca with rfl
    decide
  · have hall : ∀ x ∈ "(Hashtag)".toList,
        x ≠ '\n' ∧ x ≠ '\r' ∧ x ≠ '\t' ∧ x ≠ '\x23' := by decide
    exact hall c hca
  · rcases List.mem_singleton.1 hca with rfl
    refine ⟨?_, ?_, ?_, h2⟩ <;> intro h <;> exact h1 (by simp [h])

theorem sanitizeChars_id_of_clean :
    ∀ cs : List Char,
      (∀ c ∈ cs, c ≠ '\n' ∧ c ≠ '\r' ∧ c ≠ '\t' ∧ c ≠ '\x23') →
      sanitizeChars cs = cs := by
  intro cs
  induction cs with
  | nil => intro _; rfl
  | cons a t ih =>
    intro h
    have ha := h a (List.mem_cons_self a t)
    have ht := fun c hc => h c (List.mem_cons_of_mem a hc)
    simp only [sanitizeChars, List.flatMap_cons]
    rw [show sanitizeChar a = [a] by
      unfold sanitizeChar
      rw [if_neg (by simp [ha.1, ha.2.1, ha.2.2.1]), if_neg ha.2.2.2]]
    rw [show t.flatMap sanitizeChar = t from ih ht]
    rfl

theorem firstIdxOf_append_of_not_mem {p : List Char} {c : Char}
    (hp : c ∉ p) (l : List Char) :
    firstIdxOf (p ++ l) c = (firstIdxOf l c).map (fun i => i + p.length) := by
  induction p with
  | nil =>
    simp only [List.nil_append, List.length_nil]
    cases firstIdxOf l c <;> simp
  | cons a t ih =>
    have ha : ¬ a = c := fun h => hp (by simp [h])
    have ht : c ∉ t := fun h => hp (List.mem_cons_of_mem a h)
    rw [List.cons_append]
    rw [show firstIdxOf (a :: (t ++ l)) c =
        (firstIdxOf (t ++ l) c).map (· + 1) by
      simp [firstIdxOf, ha]]
    rw [ih ht]
    cases firstIdxOf l c with
    | none => rfl
    | some i =>
      simp only [Option.map_map, Option.map_some', Option.some.injEq,
        List.length_cons, Function.comp]
      omega

theorem lastIdxOf_append_of_not_mem (xs q : List Char)
    (hq : '\x7d' ∉ q) :
    lastIdxOf (xs ++ '\x7d' :: q) '\x7d' = some xs.length := by
  have hqr : '\x7d' ∉ q.reverse := fun h => hq (List.mem_reverse.1 h)
  unfold lastIdxOf
  rw [show (xs ++ '\x7d' :: q).reverse =
      q.reverse ++ '\x7d' :: xs.reverse by simp]
  rw [firstIdxOf_append_of_not_mem hqr]
  rw [show firstIdxOf ('\x7d' :: xs.reverse) '\x7d' = some 0 by
    simp [firstIdxOf]]
  simp only [Option.map_some']
  simp only [List.length_append, List.length_cons, List.length_reverse]
  congr 1
  omega

theorem pyFindJsonSpan_wrapper (p mid q : List Char)
    (hp : '\x7b' ∉ p) (hq : '\x7d' ∉ q) :
    pyFindJsonSpan (p ++ '\x7b' :: mid ++ '\x7d' :: q) =
      some ('\x7b' :: mid ++ ['\x7d']) := by
  have hfirst : firstIdxOf (p ++ '\x7b' :: mid ++ '\x7d' :: q) '\x7b' =
      some p.length := by
    rw [List.append_assoc]
    rw [firstIdxOf_append_of_not_mem hp (('\x7b' :: mid) ++ ('\x7d' :: q))]
    simp [List.cons_append, firstIdxOf]
  have hlast : lastIdxOf (p ++ '\x7b' :: mid ++ '\x7d' :: q) '\x7d' =
      some (p.length + 1 + mid.length) := by
    rw [show p ++ '\x7b' :: mid ++ '\x7d' :: q =
        (p ++ '\x7b' :: mid) ++ '\x7d' :: q by simp]
    rw [lastIdxOf_append_of_not_mem _ _ hq]
    simp only [List.length_append, List.length_cons, Option.some.injEq]
    omega
  unfold pyFindJsonSpan
  simp only [hfirst, hlast]
  rw [if_pos (by omega)]
  congr 1
  rw [show p ++ '\x7b' :: mid ++ '\x7d' :: q =
      p ++ (('\x7b' :: mid ++ ['\x7d']) ++ q) by simp]
  rw [List.drop_left]
  rw [List.take_left' (by simp; omega)]

/-- C6, amended: before parsing, the raw gateway response is sanitized so
that the result contains no newline, carriage return, tab or literal hash
mark (each of the first three becomes a space, each hash mark becomes the
placeholder `(Hashtag)`, and a response containing none of them is left
unchanged); parsing then extracts the span from the FIRST opening brace to
the LAST closing brace of the response — which tolerates arbitrary leading
wrapper text without braces and trailing wrapper text without closing
braces, but is NOT the first top-level object when several objects occur
(see the counterexample) — and the run fails when no such span exists or
the span does not decode as JSON. -/
theorem c6_sanitize_and_extraction (s w : String) (p mid q : List Char)
    (hp : '\x7b' ∉ p) (hq : '\x7d' ∉ q)
    (hw : ∀ c ∈ w.toList, c ≠ '\n' ∧ c ≠ '\r' ∧ c ≠ '\t' ∧ c ≠ '\x23') :
    (∀ c ∈ sanitizeChars s.toList,
      c ≠ '\n' ∧ c ≠ '\r' ∧ c ≠ '\t' ∧ c ≠ '\x23') ∧
    sanitizeChars ('\x23' :: s.toList) =
      "(Hashtag)".toList ++ sanitizeChars s.toList ∧
    sanitizeChars w.toList = w.toList ∧
    pyFindJsonSpan (p ++ '\x7b' :: mid ++ '\x7d' :: q) =
      some ('\x7b' :: mid ++ ['\x7d']) ∧
    (pyFindJsonSpan s.toList = none →
      parse_json_from_string s =
        Except.error "No JSON object found in the input string.") ∧
    (∀ span, pyFindJsonSpan s.toList = some span →
      jsonLoadsChars span = none →
      parse_json_from_string s = Except.error "Failed to decode JSON") := by
  refine ⟨sanitizeChars_clean s.toList, rfl,
    sanitizeChars_id_of_clean w.toList hw,
    pyFindJsonSpan_wrapper p mid q hp hq, ?_, ?_⟩
  · intro h
    unfold parse_json_from_string
    rw [h]
  · intro span hspan hdec
    unfold parse_json_from_string
    simp only [hspan, hdec]

/-- Witness for `c6_sanitize_and_extraction` on concrete wrapper text. -/
theorem c6_sanitize_and_extraction_witness :
    pyFindJsonSpan ("ab".toList ++ '\x7b' :: "\"x\": 1".toList ++
        '\x7d' :: "cd".toList) =
      some ('\x7b' :: "\"x\": 1".toList ++ ['\x7d']) := by
  exact (c6_sanitize_and_extraction "z" "z" "ab".toList "\"x\": 1".toList
    "cd".toList (by decide) (by decide) (by decide)).2.2.2.1

/-- C6 counterexample: a response holding two complete JSON objects.  The
claim says parsing extracts the FIRST top-level object (which decodes
fine), but the greedy regex takes the span from the first `\x7b` to the
LAST `\x7d`, which does not decode, so the run fails. -/
theorem c6_counterexample :
    parse_json_from_string "a\x7b\"x\": 1\x7d b \x7b\"y\": 2\x7d" =
      Except.error "Failed to decode JSON" ∧
    spec_first_top_level_object
        "a\x7b\"x\": 1\x7d b \x7b\"y\": 2\x7d".toList =
      some "\x7b\"x\": 1\x7d".toList ∧
    jsonLoadsChars "\x7b\"x\": 1\x7d".toList =
      some (JVal.jobj [("x", JVal.jnum "1")]) := by
  exact ⟨rfl, rfl, rfl⟩

end SMG
